import Mathlib

/-!
Shallow embedding of the metrics dashboard in `src/pages/index.js`.

JavaScript numbers are modelled as exact arithmetic (`Nat` for the
non-negative integer counters, `ℚ` where the code divides), strings as
Lean `String`, and the Supabase query results as
`Except String (Option (List _))` (an `{ data, error }` pair whose
`data` may be null).  The React component state is an explicit
structure and every effect of the component is a pure state-to-state
function translated line by line from the source.
-/

namespace Metrics

/-- One row of the `metrics` collection (`{ date, new_records_count }`);
the date is an opaque key. -/
structure MetricRow where
  date : Nat
  new_records_count : Nat
deriving DecidableEq, Repr

/-- One row of the `node_records` collection
(`{ peer_id, version, peer_count, timestamp }`); the timestamp is an
opaque instant. -/
structure NodeRecord where
  peer_id : String
  version : String
  peer_count : Nat
  timestamp : Nat
deriving DecidableEq, Repr

/-- The four per-section loading flags of `componentLoading`
(src/pages/index.js lines 56-61). -/
structure LoadFlags where
  metrics : Bool
  nodes : Bool
  versions : Bool
  peers : Bool
deriving DecidableEq, Repr

/-- The React component state of `Dashboard`
(src/pages/index.js lines 51-68). -/
structure DashState where
  metrics : List MetricRow
  activeNodes : List NodeRecord
  loading : Bool
  error : Option String
  componentLoading : LoadFlags
  versionPage : Nat
  peerPage : Nat
  searchQuery : String
  searchResults : List String
  isSearching : Bool
deriving DecidableEq, Repr

/-- Constant `ITEMS_PER_PAGE` (src/pages/index.js line 48). -/
def ITEMS_PER_PAGE : Nat := 5

/-! ### JavaScript string helpers -/

/-- JavaScript `String.prototype.toLowerCase` (character-wise lowering). -/
def jsToLower (s : String) : String := ⟨s.data.map Char.toLower⟩

/-- JavaScript `s.includes(sub)`: `sub` occurs contiguously in `s`. -/
def jsIncludes (s sub : String) : Bool := decide (sub.data <:+: s.data)

/-- Truthiness of JavaScript `s.trim()`: some character of `s` is not
whitespace. -/
def jsTrimmedNonempty (s : String) : Bool := s.data.any (fun c => !c.isWhitespace)

/-! ### Aggregator (src/pages/index.js lines 195-206) -/

/-- Source `currentActiveNodes = activeNodes.length` (line 196). -/
def currentActiveNodes (nodes : List NodeRecord) : Nat := nodes.length

/-- Source `activeNodes.reduce((acc, node) => acc + node.peer_count, 0)`
(line 198). -/
def peerCountSum (nodes : List NodeRecord) : Nat :=
  nodes.foldl (fun acc node => acc + node.peer_count) 0

/-- JavaScript `x.toFixed(1)` read back as a number: the multiple of
`1/10` nearest to `x`, ties towards the larger value. -/
def toFixed1 (x : ℚ) : ℚ := ((⌊10 * x + 1 / 2⌋ : ℤ) : ℚ) / 10

/-- Source `averagePeerCount` (lines 197-199): the guarded average of
`peer_count`, `0` for an empty collection. -/
def averagePeerCount (nodes : List NodeRecord) : ℚ :=
  if nodes.length ≠ 0 then
    toFixed1 ((peerCountSum nodes : ℚ) / (nodes.length : ℚ))
  else 0

/-- JavaScript `Set` insertion: append `x` unless already present. -/
def jsSetInsert {α : Type} [DecidableEq α] (acc : List α) (x : α) : List α :=
  if x ∈ acc then acc else acc ++ [x]

/-- The element list of a JavaScript `Set` built from `l`
(`[...new Set(l)]`): first occurrences, in insertion order. -/
def jsSetElems {α : Type} [DecidableEq α] (l : List α) : List α :=
  l.foldl jsSetInsert []

/-- Reference first-occurrence deduplication: keep the head, drop its
later copies, recurse. -/
def dedupF {α : Type} [DecidableEq α] : List α → List α
  | [] => []
  | x :: xs => x :: dedupF (xs.filter (fun y => decide (y ≠ x)))
termination_by l => l.length
decreasing_by
  simp only [List.length_cons]
  exact Nat.lt_succ_of_le (List.length_filter_le _ _)

/-- Source `activePeerIds = [...new Set(activeNodes.map((node) => node.peer_id))]`
(line 200). -/
def activePeerIds (nodes : List NodeRecord) : List String :=
  jsSetElems (nodes.map (fun node => node.peer_id))

/-- Source `totalNodes = metrics.reduce((acc, day) => acc + day.new_records_count, 0)`
(line 201). -/
def totalNodes (metrics : List MetricRow) : Nat :=
  metrics.foldl (fun acc day => acc + day.new_records_count) 0

/-- One step of the `versionDistribution` reduce
(`acc[node.version] = (acc[node.version] || 0) + 1`, line 203), on the
JavaScript object modelled as an insertion-ordered association list. -/
def incVersion : List (String × Nat) → String → List (String × Nat)
  | [], v => [(v, 1)]
  | (k, c) :: rest, v =>
    if k = v then (k, c + 1) :: rest else (k, c) :: incVersion rest v

/-- Source `versionDistribution` (lines 202-205): counts of rows per version. -/
def versionDistribution (nodes : List NodeRecord) : List (String × Nat) :=
  nodes.foldl (fun acc node => incVersion acc node.version) []

/-! ### Paginator (src/pages/index.js lines 132-140) -/

/-- Source `getPaginatedData` (lines 133-136):
`data.slice((page - 1) * itemsPerPage, (page - 1) * itemsPerPage + itemsPerPage)`. -/
def getPaginatedData {α : Type} (data : List α) (page : Nat) (itemsPerPage : Nat) :
    List α :=
  (data.drop ((page - 1) * itemsPerPage)).take itemsPerPage

/-- Source `getPageCount` (lines 138-140): `Math.ceil(totalItems / itemsPerPage)`. -/
def getPageCount (totalItems itemsPerPage : Nat) : ℤ :=
  ⌈(totalItems : ℚ) / (itemsPerPage : ℚ)⌉

/-! ### Search filter (src/pages/index.js lines 75-87) -/

/-- The filter body of the search effect (lines 78-80):
`ids.filter(peerId => peerId.toLowerCase().includes(query.toLowerCase()))`. -/
def filterPeerIds (ids : List String) (query : String) : List String :=
  ids.filter (fun peerId => jsIncludes (jsToLower peerId) (jsToLower query))

/-- The search `useEffect` (lines 75-87) run after `searchQuery` changes
to `query`: when the trimmed query is truthy it recomputes
`searchResults` and resets `peerPage` to 1 (with `isSearching` toggled
on and back off), otherwise it clears `searchResults`. -/
def onQueryChange (s : DashState) (query : String) : DashState :=
  let s0 : DashState := { s with searchQuery := query }
  if jsTrimmedNonempty query then
    { s0 with
      isSearching := false
      searchResults := filterPeerIds (activePeerIds s0.activeNodes) query
      peerPage := 1 }
  else
    { s0 with searchResults := [] }

/-! ### Data loader (src/pages/index.js lines 89-130) -/

/-- The synchronous prologue of `fetchData` (lines 90-97): set
`loading`, clear `error`, mark all four sections loading. -/
def resetForLoad (s : DashState) : DashState :=
  { s with
    loading := true
    error := none
    componentLoading := { metrics := true, nodes := true, versions := true, peers := true } }

/-- The try/catch/finally body of `fetchData` (lines 99-129), applied to
the two query results.  A thrown/`reject`ed error is the `Except.error`
case; a resolved query carries `data` that may be null (`Option`). -/
def runQueries (metricsRes : Except String (Option (List MetricRow)))
    (nodesRes : Except String (Option (List NodeRecord))) (s : DashState) : DashState :=
  match metricsRes with
  | .error e => { s with error := some e, loading := false }
  | .ok metricsData =>
    let s1 : DashState :=
      { s with
        metrics := metricsData.getD []
        componentLoading := { s.componentLoading with metrics := false } }
    match nodesRes with
    | .error e => { s1 with error := some e, loading := false }
    | .ok nodesData =>
      let s2 : DashState :=
        { s1 with
          activeNodes := nodesData.getD []
          componentLoading :=
            { s1.componentLoading with nodes := false, versions := false, peers := false } }
      if (metricsData.getD []).isEmpty && (nodesData.getD []).isEmpty then
        { s2 with error := some "No data available", loading := false }
      else
        { s2 with loading := false }

/-- Source `fetchData` (lines 89-130) as a whole: the prologue followed by the
processing of the two query results. -/
def fetchData (metricsRes : Except String (Option (List MetricRow)))
    (nodesRes : Except String (Option (List NodeRecord))) (s : DashState) : DashState :=
  runQueries metricsRes nodesRes (resetForLoad s)

/-! ### Presentation (src/pages/index.js lines 208-216, 351-352, 592-605) -/

/-- Source `displayPeerIds = searchQuery ? searchResults : activePeerIds`
(line 211); a JavaScript string is truthy iff non-empty. -/
def displayPeerIds (s : DashState) : List String :=
  if s.searchQuery ≠ "" then s.searchResults else activePeerIds s.activeNodes

/-- Whether the peer-ID card renders the "No matching peer IDs found"
empty state (the conditional chain of lines 592-605). -/
def showsNoMatches (s : DashState) : Bool :=
  if s.componentLoading.peers then false
  else if (activePeerIds s.activeNodes).isEmpty then false
  else if s.isSearching then false
  else decide (s.searchQuery ≠ "") && s.searchResults.isEmpty

/-- Whether the main area renders the error view instead of any content
(`error ? <ErrorState/> : ...`, lines 351-352). -/
def rendersErrorView (s : DashState) : Bool := s.error.isSome

/-! ### Spec-side definitions and example data -/

/-- Spec-side definition for the refinement claim on `averagePeerCount`:
the mean of `peer_count` over all NodeRecord rows ("mean of `peer_count`
across all NodeRecord rows"). -/
def specMeanPeerCount (nodes : List NodeRecord) : ℚ :=
  (nodes.map (fun n => (n.peer_count : ℚ))).sum / (nodes.length : ℚ)

/-- Spec-side definition of rounding to one decimal place
("rounded to one decimal place"). -/
def specRound1 (x : ℚ) : ℚ := ((round (10 * x) : ℤ) : ℚ) / 10

/-- The three-row example collection of spec section 8, in the
timestamp-descending fetch order. -/
def egNodes : List NodeRecord :=
  [{ peer_id := "A", version := "1.0", peer_count := 4, timestamp := 30 },
   { peer_id := "A", version := "1.0", peer_count := 6, timestamp := 20 },
   { peer_id := "B", version := "1.1", peer_count := 2, timestamp := 10 }]

/-- An idle dashboard state after a successful load of `egNodes`. -/
def egState : DashState :=
  { metrics := []
    activeNodes := egNodes
    loading := false
    error := none
    componentLoading := { metrics := false, nodes := false, versions := false, peers := false }
    versionPage := 1
    peerPage := 1
    searchQuery := ""
    searchResults := []
    isSearching := false }

/-- The idle state after the user has searched for "abc" and paged both
lists away from page 1. -/
def egStateSearch : DashState :=
  { egState with versionPage := 2, peerPage := 3, searchQuery := "abc" }

/-! ### Helper lemmas -/

theorem foldl_add_map {α : Type} (f : α → ℕ) (l : List α) :
    ∀ acc : ℕ, l.foldl (fun a x => a + f x) acc = acc + (l.map f).sum := by
  induction l with
  | nil => intro acc; simp
  | cons x xs ih =>
    intro acc
    simp only [List.foldl_cons, ih, List.map_cons, List.sum_cons]
    ring

theorem peerCountSum_eq (nodes : List NodeRecord) :
    peerCountSum nodes = (nodes.map (fun node => node.peer_count)).sum := by
  simpa using foldl_add_map (fun node => node.peer_count) nodes 0

theorem mem_dedupF {α : Type} [DecidableEq α] (l : List α) (a : α) :
    a ∈ dedupF l ↔ a ∈ l := by
  induction l using dedupF.induct with
  | case1 => simp [dedupF]
  | case2 x xs ih =>
    simp only [dedupF, List.mem_cons, ih, List.mem_filter, decide_eq_true_eq]
    by_cases hax : a = x <;> simp [hax]

theorem nodup_dedupF {α : Type} [DecidableEq α] (l : List α) :
    (dedupF l).Nodup := by
  induction l using dedupF.induct with
  | case1 => simp [dedupF]
  | case2 x xs ih =>
    simp only [dedupF, List.nodup_cons, mem_dedupF, List.mem_filter, decide_eq_true_eq]
    exact ⟨fun h => h.2 rfl, ih⟩

theorem indexOf_filter_mono {α : Type} [DecidableEq α] (p : α → Bool) (l : List α) :
    ∀ a b : α, a ∈ l.filter p → b ∈ l.filter p →
      (l.filter p).indexOf a < (l.filter p).indexOf b → l.indexOf a < l.indexOf b := by
  induction l with
  | nil => simp
  | cons c cs ih =>
    intro a b ha hb hlt
    by_cases hp : p c
    · rw [List.filter_cons_of_pos hp] at ha hb hlt
      by_cases hac : a = c
      · subst hac
        rw [List.indexOf_cons_self] at hlt ⊢
        have hba : b ≠ a := by
          intro hba
          subst hba
          rw [List.indexOf_cons_self] at hlt
          exact Nat.lt_irrefl 0 hlt
        rw [List.indexOf_cons_ne _ (Ne.symm hba)]
        exact Nat.succ_pos _
      · have ha' : a ∈ cs.filter p := by
          rcases List.mem_cons.mp ha with h | h
          · exact absurd h hac
          · exact h
        rw [List.indexOf_cons_ne _ (fun h => hac h.symm)] at hlt
        by_cases hbc : b = c
        · subst hbc
          rw [List.indexOf_cons_self] at hlt
          exact absurd hlt (Nat.not_lt_zero _)
        · have hb' : b ∈ cs.filter p := by
            rcases List.mem_cons.mp hb with h | h
            · exact absurd h hbc
            · exact h
          rw [List.indexOf_cons_ne _ (fun h => hbc h.symm)] at hlt
          rw [List.indexOf_cons_ne _ (fun h => hac h.symm),
            List.indexOf_cons_ne _ (fun h => hbc h.symm)]
          exact Nat.succ_lt_succ (ih a b ha' hb' (Nat.lt_of_succ_lt_succ hlt))
    · rw [List.filter_cons_of_neg hp] at ha hb hlt
      have hac : a ≠ c := by
        intro h
        subst h
        exact hp (List.mem_filter.mp ha).2
      have hbc : b ≠ c := by
        intro h
        subst h
        exact hp (List.mem_filter.mp hb).2
      rw [List.indexOf_cons_ne _ (Ne.symm hac), List.indexOf_cons_ne _ (Ne.symm hbc)]
      exact Nat.succ_lt_succ (ih a b ha hb hlt)

theorem pairwise_indexOf_dedupF {α : Type} [DecidableEq α] (l : List α) :
    (dedupF l).Pairwise (fun a b => l.indexOf a < l.indexOf b) := by
  induction l using dedupF.induct with
  | case1 => simp [dedupF]
  | case2 x xs ih =>
    rw [dedupF, List.pairwise_cons]
    constructor
    · intro b hb
      have hbmem : b ∈ xs.filter (fun y => decide (y ≠ x)) := (mem_dedupF _ _).mp hb
      have hbx : b ≠ x := by
        have := (List.mem_filter.mp hbmem).2
        simpa using this
      rw [List.indexOf_cons_self, List.indexOf_cons_ne _ (Ne.symm hbx)]
      exact Nat.succ_pos _
    · refine List.Pairwise.imp_of_mem ?_ ih
      intro a b ha hb hlt
      have hamem : a ∈ xs.filter (fun y => decide (y ≠ x)) := (mem_dedupF _ _).mp ha
      have hbmem : b ∈ xs.filter (fun y => decide (y ≠ x)) := (mem_dedupF _ _).mp hb
      have hax : a ≠ x := by
        have := (List.mem_filter.mp hamem).2
        simpa using this
      have hbx : b ≠ x := by
        have := (List.mem_filter.mp hbmem).2
        simpa using this
      rw [List.indexOf_cons_ne _ (Ne.symm hax), List.indexOf_cons_ne _ (Ne.symm hbx)]
      exact Nat.succ_lt_succ (indexOf_filter_mono _ xs a b hamem hbmem hlt)

theorem foldl_jsSetInsert {α : Type} [DecidableEq α] (l : List α) :
    ∀ acc : List α,
      l.foldl jsSetInsert acc = acc ++ dedupF (l.filter (fun x => decide (x ∉ acc))) := by
  induction l with
  | nil => intro acc; simp [dedupF]
  | cons x xs ih =>
    intro acc
    rw [List.foldl_cons]
    by_cases hx : x ∈ acc
    · rw [show jsSetInsert acc x = acc from if_pos hx, ih acc,
        List.filter_cons_of_neg (by simpa using hx)]
    · rw [show jsSetInsert acc x = acc ++ [x] from if_neg hx, ih (acc ++ [x]),
        List.filter_cons_of_pos (by simpa using hx)]
      rw [dedupF, List.append_assoc, List.singleton_append]
      have hf : xs.filter (fun y => decide (y ∉ acc ++ [x]))
          = (xs.filter (fun y => decide (y ∉ acc))).filter (fun y => decide (y ≠ x)) := by
        rw [List.filter_filter]
        apply List.filter_congr
        intro y _
        by_cases h1 : y ∈ acc <;> by_cases h2 : y = x <;>
          simp [h1, h2, List.mem_append]
      rw [hf]

theorem jsSetElems_eq_dedupF {α : Type} [DecidableEq α] (l : List α) :
    jsSetElems l = dedupF l := by
  rw [jsSetElems, foldl_jsSetInsert l [], List.nil_append]
  congr 1
  apply List.filter_eq_self.mpr
  intro a _
  simp

theorem getPageCount_five (n : ℕ) : getPageCount n 5 = (((n + 4) / 5 : ℕ) : ℤ) := by
  have h5 : (0 : ℚ) < 5 := by norm_num
  have hcast : ((5 : ℕ) : ℚ) = 5 := by norm_num
  rw [getPageCount, hcast]
  apply le_antisymm
  · rw [Int.ceil_le, div_le_iff₀ h5]
    exact_mod_cast show n ≤ ((n + 4) / 5) * 5 by omega
  · have hz : 5 * ((n + 4) / 5) < n + 5 := by omega
    have hq : (((((n + 4) / 5 : ℕ) : ℤ) - 1 : ℤ) : ℚ) < (n : ℚ) / 5 := by
      rw [lt_div_iff₀ h5]
      generalize hm : (n + 4) / 5 = m at hz
      have hzq : ((5 * m : ℕ) : ℚ) < ((n + 5 : ℕ) : ℚ) := by exact_mod_cast hz
      push_cast at hzq ⊢
      linarith
    have hlt := Int.lt_ceil.mpr hq
    omega

theorem sumSnd_incVersion (l : List (String × Nat)) (v : String) :
    ((incVersion l v).map Prod.snd).sum = (l.map Prod.snd).sum + 1 := by
  induction l with
  | nil => simp [incVersion]
  | cons kc rest ih =>
    obtain ⟨k, c⟩ := kc
    by_cases hk : k = v
    · simp [incVersion, hk]
      ring
    · simp [incVersion, hk, ih]
      ring

theorem sumSnd_versionDistribution_aux (l : List NodeRecord) :
    ∀ acc : List (String × Nat),
      ((l.foldl (fun acc node => incVersion acc node.version) acc).map Prod.snd).sum =
        (acc.map Prod.snd).sum + l.length := by
  induction l with
  | nil => intro acc; simp
  | cons node rest ih =>
    intro acc
    rw [List.foldl_cons, ih, sumSnd_incVersion]
    simp only [List.length_cons]
    ring

theorem sum_map_div (l : List ℚ) (d : ℚ) :
    (l.map (fun x => x / d)).sum = l.sum / d := by
  induction l with
  | nil => simp
  | cons x xs ih => simp [ih, add_div]

/-! ### Claims -/

/-- C1: for every non-empty nodes collection `averagePeerCount` equals
the mean of `peer_count` over all NodeRecord rows rounded to one decimal
place, and for the empty collection it equals `0` (not NaN). -/
theorem C1_averagePeerCount_spec (nodes : List NodeRecord) :
    (nodes ≠ [] → averagePeerCount nodes = specRound1 (specMeanPeerCount nodes)) ∧
    (nodes = [] → averagePeerCount nodes = 0) := by
  constructor
  · intro hne
    have hlen : nodes.length ≠ 0 := fun h => hne (List.length_eq_zero.mp h)
    rw [averagePeerCount, if_pos hlen, toFixed1, specRound1, specMeanPeerCount,
      round_eq, peerCountSum_eq]
    have hcast : (Nat.cast ((nodes.map (fun node => node.peer_count)).sum) : ℚ)
        = (nodes.map (fun n => (n.peer_count : ℚ))).sum := by
      rw [Nat.cast_list_sum, List.map_map]
      rfl
    rw [hcast]
  · intro he
    subst he
    simp [averagePeerCount]

/-- Witness for C1 at the three-row example collection. -/
theorem C1_averagePeerCount_spec_witness :
    egNodes ≠ [] ∧
    averagePeerCount egNodes = specRound1 (specMeanPeerCount egNodes) :=
  ⟨by decide, (C1_averagePeerCount_spec egNodes).1 (by decide)⟩

/-- C2 as stated is false on the code: for the whitespace-only query
`" "` (whose trimmed form is empty), the displayed peer-ID list is the
empty `searchResults`, not the full `activePeerIds` set, and the
"no matches" empty state is shown, because line 211 and line 602 test
the untrimmed `searchQuery` for truthiness. -/
theorem C2_whitespace_query_counterexample :
    jsTrimmedNonempty " " = false ∧
    displayPeerIds (onQueryChange egState " ") ≠
      activePeerIds (onQueryChange egState " ").activeNodes ∧
    showsNoMatches (onQueryChange egState " ") = true :=
  ⟨by decide, by decide, by decide⟩

/-- C2 amended: for every empty search query the displayed peer-ID list
is the full unfiltered `activePeerIds` set and the "no matches" empty
state is not shown (whitespace-only non-empty queries instead display
an empty list and do show that state). -/
theorem C2_displayPeerIds_empty_query (s : DashState) (h : s.searchQuery = "") :
    displayPeerIds s = activePeerIds s.activeNodes ∧ showsNoMatches s = false := by
  constructor
  · rw [displayPeerIds, if_neg (by simp [h])]
  · rw [showsNoMatches]
    simp [h]

/-- Witness for the amended C2 at the idle example state. -/
theorem C2_displayPeerIds_empty_query_witness :
    egState.searchQuery = "" ∧
    (displayPeerIds egState = activePeerIds egState.activeNodes ∧
      showsNoMatches egState = false) :=
  ⟨rfl, C2_displayPeerIds_empty_query egState rfl⟩

/-- C3: for every list of peer IDs and non-empty query, the search
filter keeps exactly the IDs whose lowercased text contains the
lowercased query as a substring, in the input's relative order
(a sublist), and in particular keeps `"Peer1"` alone from
`["Peer1", "peer2"]` under query `"PEER1"`. -/
theorem C3_filterPeerIds_spec (ids : List String) (query : String) (hq : query ≠ "") :
    (filterPeerIds ids query).Sublist ids ∧
    (∀ x, x ∈ filterPeerIds ids query ↔
      x ∈ ids ∧ (jsToLower query).data <:+: (jsToLower x).data) ∧
    filterPeerIds ["Peer1", "peer2"] "PEER1" = ["Peer1"] := by
  refine ⟨List.filter_sublist ids, ?_, by decide⟩
  intro x
  simp [filterPeerIds, List.mem_filter, jsIncludes]

/-- Witness for C3 at the spec's own example. -/
theorem C3_filterPeerIds_spec_witness :
    ("PEER1" : String) ≠ "" ∧
    filterPeerIds ["Peer1", "peer2"] "PEER1" = ["Peer1"] :=
  ⟨by decide, (C3_filterPeerIds_spec ["Peer1", "peer2"] "PEER1" (by decide)).2.2⟩

/-- C4 as stated is false on the code: clearing the search query (a
change of the query text to `""`) does not reset the peer page, because
`setPeerPage(1)` only runs in the truthy-trimmed branch of the search
effect. -/
theorem C4_queryChange_counterexample :
    egStateSearch.searchQuery ≠ "" ∧
    (onQueryChange egStateSearch "").peerPage = 3 ∧
    (onQueryChange egStateSearch "").peerPage ≠ 1 :=
  ⟨by decide, by decide, by decide⟩

/-- C4 amended: a change of the search query resets the peer page to 1
whenever the new query has non-whitespace content (the truthy-trimmed
branch), and no query change ever alters the version page. -/
theorem C4_onQueryChange_pages (s : DashState) (q : String) :
    (jsTrimmedNonempty q = true → (onQueryChange s q).peerPage = 1) ∧
    (onQueryChange s q).versionPage = s.versionPage := by
  by_cases hq : jsTrimmedNonempty q <;> simp [onQueryChange, hq]

/-- Witness for the amended C4 at the searching example state. -/
theorem C4_onQueryChange_pages_witness :
    jsTrimmedNonempty "x" = true ∧
    (onQueryChange egStateSearch "x").peerPage = 1 ∧
    (onQueryChange egStateSearch "x").versionPage = egStateSearch.versionPage :=
  ⟨by decide, (C4_onQueryChange_pages egStateSearch "x").1 (by decide),
    (C4_onQueryChange_pages egStateSearch "x").2⟩

/-- C5: `activePeerIds` contains no duplicates, contains exactly the
fetched `peer_id` values, and lists them in the order of their first
occurrence in the (timestamp-descending) input sequence: pairwise, an
earlier entry has a strictly smaller first-occurrence index. -/
theorem C5_activePeerIds_distinct (nodes : List NodeRecord) :
    (activePeerIds nodes).Nodup ∧
    (∀ x, x ∈ activePeerIds nodes ↔ x ∈ nodes.map (fun node => node.peer_id)) ∧
    (activePeerIds nodes).Pairwise (fun a b =>
      (nodes.map (fun node => node.peer_id)).indexOf a <
        (nodes.map (fun node => node.peer_id)).indexOf b) := by
  rw [activePeerIds, jsSetElems_eq_dedupF]
  exact ⟨nodup_dedupF _, fun x => mem_dedupF _ x, pairwise_indexOf_dedupF _⟩

/-- C6: `getPageCount` at page size 5 is the ceiling of `total / 5`,
equivalently the integer formula `(total + 4) / 5`, and in particular
maps totals 0, 5, 6 to 0, 1, 2. -/
theorem C6_getPageCount_spec (total : ℕ) :
    getPageCount total 5 = ⌈(total : ℚ) / 5⌉ ∧
    getPageCount total 5 = (((total + 4) / 5 : ℕ) : ℤ) ∧
    getPageCount 0 5 = 0 ∧ getPageCount 5 5 = 1 ∧ getPageCount 6 5 = 2 := by
  refine ⟨?_, getPageCount_five total, ?_, ?_, ?_⟩
  · rw [getPageCount]
    norm_num
  · rw [getPageCount_five]
    decide
  · rw [getPageCount_five]
    decide
  · rw [getPageCount_five]
    decide

/-- C7: for every sequence and page number at least 1, a page slice has
at most 5 items, and every page past `getPageCount` is empty. -/
theorem C7_getPaginatedData_spec {α : Type} (data : List α) (page : ℕ) (hp : 1 ≤ page) :
    (getPaginatedData data page 5).length ≤ 5 ∧
    (getPageCount data.length 5 < (page : ℤ) → getPaginatedData data page 5 = []) := by
  constructor
  · rw [getPaginatedData]
    simp [List.length_take]
  · intro hgt
    rw [getPageCount_five] at hgt
    have hle : data.length ≤ (page - 1) * 5 := by
      have h : (data.length + 4) / 5 < page := by exact_mod_cast hgt
      omega
    rw [getPaginatedData, List.drop_eq_nil_of_le hle, List.take_nil]

/-- Witness for C7 on a six-element list at page 3 (page count 2). -/
theorem C7_getPaginatedData_spec_witness :
    (1 ≤ 3 ∧ getPageCount (6 : ℕ) 5 < (3 : ℤ)) ∧
    (getPaginatedData ["a", "b", "c", "d", "e", "f"] 3 5).length ≤ 5 ∧
    getPaginatedData ["a", "b", "c", "d", "e", "f"] 3 5 = ([] : List String) := by
  have h := C7_getPaginatedData_spec ["a", "b", "c", "d", "e", "f"] 3 (by decide)
  refine ⟨⟨by decide, by rw [getPageCount_five]; decide⟩, h.1,
    h.2 (by rw [getPageCount_five]; decide)⟩

/-- C8: when both queries succeed and both collections come back empty,
the load ends in the single error "No data available" and the main area
renders the error view in place of all content. -/
theorem C8_fetchData_empty_error (s : DashState) :
    (fetchData (Except.ok (some [])) (Except.ok (some [])) s).error =
      some "No data available" ∧
    rendersErrorView (fetchData (Except.ok (some [])) (Except.ok (some [])) s) = true :=
  ⟨rfl, rfl⟩

/-- C9: every invocation of `fetchData` consumes the query results only
from the reset state, in which the error is cleared to `none`, all four
loading flags are `true`, and the global loading flag is set. -/
theorem C9_fetchData_resets (metricsRes : Except String (Option (List MetricRow)))
    (nodesRes : Except String (Option (List NodeRecord))) (s : DashState) :
    fetchData metricsRes nodesRes s = runQueries metricsRes nodesRes (resetForLoad s) ∧
    (resetForLoad s).error = none ∧
    (resetForLoad s).componentLoading =
      { metrics := true, nodes := true, versions := true, peers := true } ∧
    (resetForLoad s).loading = true :=
  ⟨rfl, rfl, rfl, rfl⟩

/-- C10: the counts in `versionDistribution` sum to the active-node
count (each row is counted under exactly one version), and hence for a
non-empty collection the proportional bar widths
`count / activeNodeCount` sum to 1 (100%). -/
theorem C10_versionDistribution_total (nodes : List NodeRecord) :
    ((versionDistribution nodes).map Prod.snd).sum = currentActiveNodes nodes ∧
    (nodes ≠ [] →
      ((versionDistribution nodes).map
        (fun p => (p.2 : ℚ) / (currentActiveNodes nodes : ℚ))).sum = 1) := by
  have hsum : ((versionDistribution nodes).map Prod.snd).sum = nodes.length := by
    simpa using sumSnd_versionDistribution_aux nodes []
  refine ⟨hsum, ?_⟩
  intro hne
  have hlen : ((nodes.length : ℕ) : ℚ) ≠ 0 :=
    Nat.cast_ne_zero.mpr (fun h => hne (List.length_eq_zero.mp h))
  have h1 : (versionDistribution nodes).map
      (fun p => (p.2 : ℚ) / (currentActiveNodes nodes : ℚ))
      = ((versionDistribution nodes).map (fun p => (p.2 : ℚ))).map
          (fun x => x / (currentActiveNodes nodes : ℚ)) := by
    rw [List.map_map]
    rfl
  have h2 : ((versionDistribution nodes).map (fun p => (p.2 : ℚ))).sum
      = ((((versionDistribution nodes).map Prod.snd).sum : ℕ) : ℚ) := by
    rw [Nat.cast_list_sum, List.map_map]
    rfl
  rw [h1, sum_map_div, h2, hsum]
  simp only [currentActiveNodes]
  exact div_self hlen

/-- Witness for C10 at the three-row example collection. -/
theorem C10_versionDistribution_total_witness :
    egNodes ≠ [] ∧
    ((versionDistribution egNodes).map
      (fun p => (p.2 : ℚ) / (currentActiveNodes egNodes : ℚ))).sum = 1 :=
  ⟨by decide, (C10_versionDistribution_total egNodes).2 (by decide)⟩

end Metrics
